import Mathlib

/-!
Verification development for the FastJango ORM core
(`fastjango/db/queryset.py`, `fastjango/db/models.py`,
`fastjango/db/migrations.py`).

The Python code is shallowly embedded:

* Column values are `PyVal` (integers, strings, booleans); a row is an
  association list from column names to values (a missing key is SQL
  `NULL`).
* A compiled SQLAlchemy predicate expression is the AST `SqlExpr`,
  mirroring exactly what `QuerySet._build_lookup_filter` constructs;
  evaluation is three-valued (`Option Bool`, `none` = SQL `NULL`), and a
  `WHERE` clause keeps a row iff every conjunct evaluates to `some true`,
  matching `and_(*self._filters)`.
* Python exceptions become the `PyError` inductive; fallible methods
  return `Except PyError _`.
* The session's table contents are a plain `List Row`; query execution is
  list filtering/sorting/slicing with the same truthiness guards
  (`if self._limit:` …) as `QuerySet._build_query`.
-/

namespace FastJango

/-- A Python/SQL scalar value stored in a column or used in a lookup. -/
inductive PyVal where
  | int (i : Int)
  | str (s : String)
  | bool (b : Bool)
deriving DecidableEq, BEq

/-- A Python value passed as the right-hand side of a filter kwarg:
either a scalar or a list/tuple (needed by `in` and `range` lookups). -/
inductive PyArg where
  | val (v : PyVal)
  | list (vs : List PyVal)
deriving DecidableEq

/-- Python exceptions raised by the ORM core.  `valueError` is what
`_build_lookup_filter` raises for an unknown lookup;
`attributeError` models `getattr` on an undeclared field;
`invalidRequestError` models the session provider's error for deleting a
non-persisted instance.  `objectDoesNotExist`, `multipleObjectsReturned`
and `unknownLookupError` are modelled from the spec: the module
`fastjango.core.exceptions` is not in the source tree and no
`UnknownLookupError` class exists anywhere in the source; they are
included so that spec-level claims about them are statable. -/
inductive PyError where
  | valueError (msg : String)
  | typeError (msg : String)
  | indexError (msg : String)
  | attributeError (name : String)
  | objectDoesNotExist (msg : String)
  | multipleObjectsReturned (msg : String)
  | invalidRequestError (msg : String)
  | unknownLookupError (msg : String)
deriving DecidableEq

/-- A database row: association list from column name to value.
A column absent from the list reads as SQL `NULL`. -/
abbrev Row := List (String × PyVal)

/-- Read a column of a row (first binding wins); `none` is SQL `NULL`. -/
def Row.getF (r : Row) (c : String) : Option PyVal :=
  (r.find? (fun p => p.1 == c)).map (·.2)

/-- The declared model schema: the attribute names `getattr(self.model, f)`
succeeds on (declared fields plus the automatic `id` column). -/
structure ModelSchema where
  fields : List String
deriving DecidableEq

/-! ### String helpers used by the lookup engine -/

/-- Substring test (SQL `LIKE '%v%'` with a literal pattern). -/
def strContainsSub (s sub : String) : Bool :=
  (List.range (s.length + 1)).any (fun i => (s.drop i).startsWith sub)

/-- SQL text rendering of a value (SQLite-style cast used by `LIKE`). -/
def pvStr : PyVal → String
  | .str s => s
  | .int i => toString i
  | .bool b => if b then "1" else "0"

/-- `func.lower` applied to a value: lowercases text, leaves others. -/
def pvLower : PyVal → PyVal
  | .str s => .str s.toLower
  | v => v

/-- SQL type rank for cross-type comparison (numbers sort before text). -/
def pvRank : PyVal → Nat
  | .int _ => 0
  | .bool _ => 0
  | .str _ => 1

/-- Numeric reading of a value (booleans are 0/1). -/
def pvNum : PyVal → Int
  | .int i => i
  | .bool b => if b then 1 else 0
  | .str _ => 0

/-- SQL `<` on scalar values: by type rank, then numerically or textually. -/
def pvLt (a b : PyVal) : Bool :=
  if pvRank a ≠ pvRank b then decide (pvRank a < pvRank b)
  else match a, b with
    | .str x, .str y => decide (x < y)
    | _, _ => decide (pvNum a < pvNum b)

/-- Python `field.split('__', 1)` on the character list: split at the
first occurrence of two consecutive underscores. -/
def splitTwoUnderscores : List Char → Option (List Char × List Char)
  | [] => none
  | c :: rest =>
    if c = '_' then
      match rest with
      | d :: tail =>
        if d = '_' then some ([], tail)
        else (splitTwoUnderscores rest).map (fun p => (c :: p.1, p.2))
      | [] => none
    else (splitTwoUnderscores rest).map (fun p => (c :: p.1, p.2))

/-- `'__' in field` plus `field.split('__', 1)` from `QuerySet.filter`:
`some (field_name, lookup)` when the key holds a double underscore. -/
def splitLookup (key : String) : Option (String × String) :=
  (splitTwoUnderscores key.toList).map (fun p => (String.mk p.1, String.mk p.2))

/-- Python truthiness of a filter argument (used by the `isnull` branch). -/
def argTruthy : PyArg → Bool
  | .val (.bool b) => b
  | .val (.int i) => i != 0
  | .val (.str s) => s != ""
  | .list vs => !vs.isEmpty

/-! ### The compiled predicate AST

One constructor per expression shape that `_build_lookup_filter`
(queryset.py 471-533), `QuerySet.filter` and `QuerySet.exclude` build. -/

/-- SQLAlchemy predicate expressions produced by the lookup engine. -/
inductive SqlExpr where
  | eqE (col : String) (v : PyVal)
  | neE (col : String) (v : PyVal)
  | loweredEq (col : String) (v : PyVal)
  | containsE (col : String) (v : PyVal)
  | icontainsE (col : String) (v : PyVal)
  | inE (col : String) (vs : List PyVal)
  | gtE (col : String) (v : PyVal)
  | gteE (col : String) (v : PyVal)
  | ltE (col : String) (v : PyVal)
  | lteE (col : String) (v : PyVal)
  | startsWithE (col : String) (v : PyVal)
  | istartsWithE (col : String) (v : PyVal)
  | endsWithE (col : String) (v : PyVal)
  | iendsWithE (col : String) (v : PyVal)
  | betweenE (col : String) (lo hi : PyVal)
  | extractEq (part : String) (col : String) (v : PyVal)
  | isNullE (col : String)
  | isNotNullE (col : String)
  | regexpE (col : String) (v : PyVal)
  | iregexpE (col : String) (v : PyVal)
  | notE (e : SqlExpr)
deriving DecidableEq

/-- Three-valued evaluation of a predicate on a row (`none` = SQL
`NULL`).  Comparisons against a `NULL` column are `NULL`; `NOT` is
Kleene negation.  `extract`-based temporal lookups and `REGEXP` are
functions of the backend engine that the embedded fragment leaves
uninterpreted: they evaluate to `NULL` (SQLite in particular ships
neither `extract` nor a default `REGEXP`). -/
def SqlExpr.eval : SqlExpr → Row → Option Bool
  | .eqE c v, r => (r.getF c).map (fun x => x == v)
  | .neE c v, r => (r.getF c).map (fun x => x != v)
  | .loweredEq c v, r => (r.getF c).map (fun x => pvLower x == pvLower v)
  | .containsE c v, r => (r.getF c).map (fun x => strContainsSub (pvStr x) (pvStr v))
  | .icontainsE c v, r =>
      (r.getF c).map (fun x => strContainsSub (pvStr (pvLower x)) (pvStr (pvLower v)))
  | .inE c vs, r => (r.getF c).map (fun x => vs.any (fun v => x == v))
  | .gtE c v, r => (r.getF c).map (fun x => pvLt v x)
  | .gteE c v, r => (r.getF c).map (fun x => !pvLt x v)
  | .ltE c v, r => (r.getF c).map (fun x => pvLt x v)
  | .lteE c v, r => (r.getF c).map (fun x => !pvLt v x)
  | .startsWithE c v, r => (r.getF c).map (fun x => (pvStr x).startsWith (pvStr v))
  | .istartsWithE c v, r =>
      (r.getF c).map (fun x => (pvStr (pvLower x)).startsWith (pvStr (pvLower v)))
  | .endsWithE c v, r => (r.getF c).map (fun x => (pvStr x).endsWith (pvStr v))
  | .iendsWithE c v, r =>
      (r.getF c).map (fun x => (pvStr (pvLower x)).endsWith (pvStr (pvLower v)))
  | .betweenE c lo hi, r => (r.getF c).map (fun x => !pvLt x lo && !pvLt hi x)
  | .extractEq _ _ _, _ => none
  | .isNullE c, r => some (r.getF c).isNone
  | .isNotNullE c, r => some (r.getF c).isSome
  | .regexpE _ _, _ => none
  | .iregexpE _ _, _ => none
  | .notE e, r => (e.eval r).map (fun b => !b)

/-! ### Lookup compilation (`QuerySet._build_lookup_filter`) -/

/-- The lookup suffixes recognized by `_build_lookup_filter`, in source
order. -/
def recognizedLookups : List String :=
  ["exact", "iexact", "contains", "icontains", "in", "gt", "gte", "lt",
   "lte", "startswith", "istartswith", "endswith", "iendswith", "range",
   "year", "month", "day", "week", "week_day", "quarter", "time", "hour",
   "minute", "second", "isnull", "regex", "iregex"]

/-- `getattr(self.model, field_name)`: the column, or `AttributeError`. -/
def getattrCol (m : ModelSchema) (fieldName : String) : Except PyError String :=
  if fieldName ∈ m.fields then .ok fieldName else .error (.attributeError fieldName)

/-- Extract the scalar from an argument, or a `TypeError` (SQLAlchemy
rejects a list where a scalar comparison operand is expected). -/
def expectVal (a : PyArg) : Except PyError PyVal :=
  match a with
  | .val v => .ok v
  | .list _ => .error (.typeError "expected a scalar value")

/-- Embeds `QuerySet._build_lookup_filter` (queryset.py 471-533): a
`getattr` on the field name, then the if/elif dispatch on the lookup
string, with `ValueError(f"Unknown lookup: {lookup}")` as the final
`else`. -/
def buildLookupFilter (m : ModelSchema) (fieldName lookup : String) (a : PyArg) :
    Except PyError SqlExpr :=
  match getattrCol m fieldName with
  | .error e => .error e
  | .ok col =>
    if lookup = "exact" then (expectVal a).map (.eqE col)
    else if lookup = "iexact" then (expectVal a).map (.loweredEq col)
    else if lookup = "contains" then (expectVal a).map (.containsE col)
    else if lookup = "icontains" then (expectVal a).map (.icontainsE col)
    else if lookup = "in" then
      match a with
      | .list vs => .ok (.inE col vs)
      | .val _ => .error (.typeError "in lookup expects an iterable")
    else if lookup = "gt" then (expectVal a).map (.gtE col)
    else if lookup = "gte" then (expectVal a).map (.gteE col)
    else if lookup = "lt" then (expectVal a).map (.ltE col)
    else if lookup = "lte" then (expectVal a).map (.lteE col)
    else if lookup = "startswith" then (expectVal a).map (.startsWithE col)
    else if lookup = "istartswith" then (expectVal a).map (.istartsWithE col)
    else if lookup = "endswith" then (expectVal a).map (.endsWithE col)
    else if lookup = "iendswith" then (expectVal a).map (.iendsWithE col)
    else if lookup = "range" then
      match a with
      | .list (lo :: hi :: _) => .ok (.betweenE col lo hi)
      | .list _ => .error (.indexError "range lookup expects two values")
      | .val _ => .error (.typeError "range lookup expects a sequence")
    else if lookup = "year" then (expectVal a).map (.extractEq "year" col)
    else if lookup = "month" then (expectVal a).map (.extractEq "month" col)
    else if lookup = "day" then (expectVal a).map (.extractEq "day" col)
    else if lookup = "week" then (expectVal a).map (.extractEq "week" col)
    else if lookup = "week_day" then (expectVal a).map (.extractEq "dow" col)
    else if lookup = "quarter" then (expectVal a).map (.extractEq "quarter" col)
    else if lookup = "time" then (expectVal a).map (.extractEq "time" col)
    else if lookup = "hour" then (expectVal a).map (.extractEq "hour" col)
    else if lookup = "minute" then (expectVal a).map (.extractEq "minute" col)
    else if lookup = "second" then (expectVal a).map (.extractEq "second" col)
    else if lookup = "isnull" then
      if argTruthy a then .ok (.isNullE col) else .ok (.isNotNullE col)
    else if lookup = "regex" then (expectVal a).map (.regexpE col)
    else if lookup = "iregex" then (expectVal a).map (.iregexpE col)
    else .error (.valueError ("Unknown lookup: " ++ lookup))

/-- One filter kwarg: key and value. -/
abbrev FilterArg := String × PyArg

/-- Compilation of one kwarg in `QuerySet.filter`: split on `'__'` and
either dispatch to the lookup engine or build `field == value`. -/
def compileFilterArg (m : ModelSchema) (arg : FilterArg) : Except PyError SqlExpr :=
  match splitLookup arg.1 with
  | some (fieldName, lookup) => buildLookupFilter m fieldName lookup arg.2
  | none =>
    match getattrCol m arg.1 with
    | .error e => .error e
    | .ok col => (expectVal arg.2).map (.eqE col)

/-- Compilation of one kwarg in `QuerySet.exclude`: lookups are wrapped
in `not_(...)`, plain kwargs become `field != value`. -/
def compileExcludeArg (m : ModelSchema) (arg : FilterArg) : Except PyError SqlExpr :=
  match splitLookup arg.1 with
  | some (fieldName, lookup) => (buildLookupFilter m fieldName lookup arg.2).map .notE
  | none =>
    match getattrCol m arg.1 with
    | .error e => .error e
    | .ok col => (expectVal arg.2).map (.neE col)

/-- Compile a kwargs list left to right, stopping at the first raised
exception (the loop in `filter`/`exclude`). -/
def compileArgs (f : FilterArg → Except PyError SqlExpr) :
    List FilterArg → Except PyError (List SqlExpr)
  | [] => .ok []
  | a :: rest =>
    match f a with
    | .error e => .error e
    | .ok e =>
      match compileArgs f rest with
      | .error e' => .error e'
      | .ok es => .ok (e :: es)

/-! ### The QuerySet value object and execution -/

/-- One `order_by` key: column and descending flag (`desc()`/`asc()`). -/
abbrev OrdKey := String × Bool

/-- The accumulated state of a `QuerySet` (queryset.py `__init__`):
predicate list, ordering list, limit, offset, distinct flag.  The
`_select_related`/`_prefetch_related` lists only matter for the aliasing
model below and are omitted from the value object. -/
structure QSpec where
  model : ModelSchema
  _filters : List SqlExpr
  _order_by : List OrdKey
  _limit : Option Nat
  _offset : Option Nat
  _distinct : Bool
deriving DecidableEq

/-- A fresh `QuerySet(model)`. -/
def initQS (m : ModelSchema) : QSpec :=
  { model := m, _filters := [], _order_by := [], _limit := none,
    _offset := none, _distinct := false }

/-- `WHERE and_(*filters)` keeps a row iff every conjunct is `TRUE`. -/
def keepRow (fs : List SqlExpr) (r : Row) : Bool :=
  fs.all (fun e => e.eval r == some true)

/-- SQL comparison of possibly-NULL cells (`NULL` sorts first). -/
def cmpCell : Option PyVal → Option PyVal → Ordering
  | none, none => .eq
  | none, some _ => .lt
  | some _, none => .gt
  | some a, some b =>
    if pvLt a b then .lt else if pvLt b a then .gt else .eq

/-- Lexicographic `ORDER BY` comparison over the key list. -/
def rowLe (ks : List OrdKey) (r₁ r₂ : Row) : Bool :=
  match ks with
  | [] => true
  | (c, dsc) :: rest =>
    let o := if dsc then cmpCell (r₂.getF c) (r₁.getF c)
             else cmpCell (r₁.getF c) (r₂.getF c)
    match o with
    | .lt => true
    | .gt => false
    | .eq => rowLe rest r₁ r₂

/-- Stable insertion into a sorted list. -/
def insertRow (le : Row → Row → Bool) (x : Row) : List Row → List Row
  | [] => [x]
  | y :: ys => if le x y then x :: y :: ys else y :: insertRow le x ys

/-- Stable sort implementing `ORDER BY` (no keys: leave the order). -/
def sortRows (ks : List OrdKey) (rs : List Row) : List Row :=
  match ks with
  | [] => rs
  | _ => rs.foldr (insertRow (rowLe ks)) []

/-- `SELECT DISTINCT`: drop duplicate rows, keeping first occurrences. -/
def dedupRows : List Row → List Row
  | [] => []
  | r :: rest => r :: dedupRows (rest.filter (fun x => !(x == r)))
termination_by l => l.length
decreasing_by
  simp only [List.length_cons]
  exact Nat.lt_succ_of_le (List.length_filter_le _ _)

/-- `if self._limit: query.limit(self._limit)` — the Python truthiness
guard: `None` and `0` both leave the query unlimited. -/
def applyLimit (l : Option Nat) (rows : List Row) : List Row :=
  match l with
  | none => rows
  | some n => if n = 0 then rows else rows.take n

/-- `if self._offset: query.offset(self._offset)` — same truthiness. -/
def applyOffset (o : Option Nat) (rows : List Row) : List Row :=
  match o with
  | none => rows
  | some n => if n = 0 then rows else rows.drop n

/-- Filtering, ordering and distinct, before limit/offset
(`_build_query` minus its two slicing guards). -/
def QSpec.runCore (q : QSpec) (s : List Row) : List Row :=
  let filtered := s.filter (keepRow q._filters)
  let distincted := if q._distinct then dedupRows filtered else filtered
  sortRows q._order_by distincted

/-- `QuerySet.all()`: execute `_build_query` and collect the rows. -/
def QSpec.all (q : QSpec) (s : List Row) : List Row :=
  applyLimit q._limit (applyOffset q._offset (q.runCore s))

/-- `QuerySet.first()`: `_build_query` with the limit overridden to 1,
then `fetchone()`. -/
def QSpec.first (q : QSpec) (s : List Row) : Option Row :=
  ((applyOffset q._offset (q.runCore s)).take 1).head?

/-- `QuerySet.filter(**kwargs)`: clone and append one compiled predicate
per kwarg; a compilation error propagates as the raised exception. -/
def QSpec.filter (q : QSpec) (args : List FilterArg) : Except PyError QSpec :=
  match compileArgs (compileFilterArg q.model) args with
  | .error e => .error e
  | .ok es => .ok { q with _filters := q._filters ++ es }

/-- `QuerySet.exclude(**kwargs)`: clone and append the negated
predicates. -/
def QSpec.exclude (q : QSpec) (args : List FilterArg) : Except PyError QSpec :=
  match compileArgs (compileExcludeArg q.model) args with
  | .error e => .error e
  | .ok es => .ok { q with _filters := q._filters ++ es }

/-- `QuerySet.limit(n)`: clone with `_limit` set. -/
def QSpec.limit (q : QSpec) (n : Nat) : QSpec := { q with _limit := some n }

/-- `QuerySet.offset(n)`: clone with `_offset` set. -/
def QSpec.offset (q : QSpec) (n : Nat) : QSpec := { q with _offset := some n }

/-- `QuerySet.get(**kwargs)`: `self.filter(**kwargs)` then `qs.first()`.
Note: the returned value is `first()`'s `Option`; nothing is raised for
zero or for multiple matches. -/
def QSpec.get (q : QSpec) (args : List FilterArg) (s : List Row) :
    Except PyError (Option Row) :=
  match q.filter args with
  | .error e => .error e
  | .ok q' => .ok (q'.first s)

/-- `Manager.get(**kwargs)`: `self.get_queryset().get(**kwargs)`. -/
def managerGet (m : ModelSchema) (args : List FilterArg) (s : List Row) :
    Except PyError (Option Row) :=
  (initQS m).get args s

/-- Is the exception the model's `DoesNotExist`? -/
def isDoesNotExistErr : PyError → Bool
  | .objectDoesNotExist _ => true
  | _ => false

/-- The automatic primary key assigned on commit of a new instance. -/
def nextId (s : List Row) : Int :=
  (s.foldr (fun r acc => max acc (match r.getF "id" with
    | some (.int i) => i
    | _ => 0)) 0) + 1

/-- `self.model(**kwargs, **defaults)` followed by `session.add`/`commit`:
the new row from the merged kwargs plus an autoincremented `id`. -/
def createRow (args : List FilterArg) (defaults : List (String × PyVal))
    (s : List Row) : Row × List Row :=
  let base := args.filterMap (fun p => match p.2 with
    | .val v => some (p.1, v)
    | .list _ => none) ++ defaults
  let row := ("id", PyVal.int (nextId s)) :: base
  (row, s ++ [row])

/-- `QuerySet.get_or_create(defaults, **kwargs)` (queryset.py 273-293):
`try: obj = self.get(**kwargs); return obj, False` with an
`except self.model.DoesNotExist` fallback that creates the row.  Returns
((object, created), storage-after). -/
def QSpec.get_or_create (q : QSpec) (args : List FilterArg)
    (defaults : List (String × PyVal)) (s : List Row) :
    Except PyError ((Option Row × Bool) × List Row) :=
  match q.get args s with
  | .ok obj => .ok ((obj, false), s)
  | .error e =>
    if isDoesNotExistErr e then
      let (row, s') := createRow args defaults s
      .ok ((some row, true), s')
    else .error e

/-- `QuerySet.values(*fields)`: projected dictionaries, with the same
filter/order/distinct pipeline and the same truthiness guards on
`_limit`/`_offset` (queryset.py 106-133). -/
def QSpec.values (q : QSpec) (flds : List String) (s : List Row) :
    List (List (String × Option PyVal)) :=
  let flds := if flds.isEmpty then q.model.fields else flds
  let filtered := s.filter (keepRow q._filters)
  let ordered := sortRows q._order_by filtered
  let projected := ordered.map (fun r => flds.map (fun f => (f, r.getF f)))
  let distincted := if q._distinct then projected.dedup else projected
  let limited := match q._limit with
    | none => distincted
    | some n => if n = 0 then distincted else distincted.take n
  match q._offset with
  | none => limited
  | some n => if n = 0 then limited else limited.drop n

/-- `QuerySet.values_list(*fields)`: projected tuples, same pipeline and
the same truthiness guards (queryset.py 135-168); `flat=True` only
reshapes singleton tuples afterwards. -/
def QSpec.values_list (q : QSpec) (flds : List String) (s : List Row) :
    List (List (Option PyVal)) :=
  let flds := if flds.isEmpty then q.model.fields else flds
  let filtered := s.filter (keepRow q._filters)
  let ordered := sortRows q._order_by filtered
  let projected := ordered.map (fun r => flds.map (fun f => r.getF f))
  let distincted := if q._distinct then projected.dedup else projected
  let limited := match q._limit with
    | none => distincted
    | some n => if n = 0 then distincted else distincted.take n
  match q._offset with
  | none => limited
  | some n => if n = 0 then limited else limited.drop n

end FastJango

namespace FastJango

/-! ### Spec-side comparison definition for the exclude-semantics claim -/

/-- Modelled from the spec ("`Q.filter(~(a=1))`"): the compiled filter
predicate of one kwarg, wrapped in logical negation.  This and the next
definition are the comparison point for the exclude-semantics claim,
not source methods. -/
def compileNotFilterArg (m : ModelSchema) (a : FilterArg) : Except PyError SqlExpr :=
  (compileFilterArg m a).map .notE

/-- Modelled from the spec: `Q.filter(NOT A)` — a filter call whose
every compiled predicate is negated. -/
def QSpec.filterNotSpec (q : QSpec) (args : List FilterArg) : Except PyError QSpec :=
  match compileArgs (compileNotFilterArg q.model) args with
  | .error e => .error e
  | .ok es => .ok { q with _filters := q._filters ++ es }

/-! ### The object/heap model of QuerySet chaining

Python `QuerySet` objects are mutable: `_clone` copies the list
attributes (`self._filters.copy()` …) into a fresh object and the
chaining methods then mutate that fresh object.  To state the
immutability claim faithfully the objects and their list attributes live
in an explicit store; each method is a function on the store. -/

/-- The attribute record of one heap-allocated `QuerySet` object.  List
attributes are references into the store's heaps; scalar attributes
(`_limit`, `_offset`, `_distinct`) are immutable values rebound on the
object. -/
structure QSObjH where
  model : ModelSchema
  filtersRef : Nat
  orderRef : Nat
  qlimit : Option Nat
  qoffset : Option Nat
  qdistinct : Bool
  selRef : Nat
  preRef : Nat
deriving DecidableEq

/-- The heap: all QuerySet objects plus the three kinds of list cells
(`_filters`, `_order_by`, and the two string lists `_select_related` /
`_prefetch_related` which share `strs`). -/
structure Store where
  objs : List QSObjH
  preds : List (List SqlExpr)
  ords : List (List OrdKey)
  strs : List (List String)
deriving DecidableEq

/-- Placeholder object for out-of-range reads. -/
def defObj : QSObjH :=
  { model := ⟨[]⟩, filtersRef := 0, orderRef := 0, qlimit := none,
    qoffset := none, qdistinct := false, selRef := 0, preRef := 0 }

/-- The observable state of one QuerySet object: every attribute with
list references resolved to their current contents. -/
structure QSView where
  spec : QSpec
  selRel : List String
  preRel : List String
deriving DecidableEq

/-- Resolve object `i`'s attributes against the store. -/
def readQS (st : Store) (i : Nat) : Option QSView :=
  (st.objs.get? i).map (fun o =>
    { spec := { model := o.model,
                _filters := (st.preds.get? o.filtersRef).getD [],
                _order_by := (st.ords.get? o.orderRef).getD [],
                _limit := o.qlimit, _offset := o.qoffset,
                _distinct := o.qdistinct },
      selRel := (st.strs.get? o.selRef).getD [],
      preRel := (st.strs.get? o.preRef).getD [] })

/-- `QuerySet.all()` on heap object `i`. -/
def allH (st : Store) (i : Nat) (s : List Row) : List Row :=
  match readQS st i with
  | some v => v.spec.all s
  | none => []

/-- Validity of object `i`: it exists and its references are live. -/
def Store.validAt (st : Store) (i : Nat) : Bool :=
  match st.objs.get? i with
  | none => false
  | some o =>
    decide (o.filtersRef < st.preds.length) && decide (o.orderRef < st.ords.length)
      && decide (o.selRef < st.strs.length) && decide (o.preRef < st.strs.length)

/-- `QuerySet._clone()` (queryset.py 429-440): allocate a new object
whose list attributes are fresh copies (`.copy()`) of the receiver's
and whose scalar attributes are the receiver's values.  Returns the new
object id and the grown store. -/
def cloneH (st : Store) (i : Nat) : Nat × Store :=
  let o := (st.objs.get? i).getD defObj
  let fcopy := (st.preds.get? o.filtersRef).getD []
  let ocopy := (st.ords.get? o.orderRef).getD []
  let scopy := (st.strs.get? o.selRef).getD []
  let pcopy := (st.strs.get? o.preRef).getD []
  let o' : QSObjH :=
    { model := o.model, filtersRef := st.preds.length, orderRef := st.ords.length,
      qlimit := o.qlimit, qoffset := o.qoffset, qdistinct := o.qdistinct,
      selRef := st.strs.length, preRef := st.strs.length + 1 }
  (st.objs.length,
   { objs := st.objs ++ [o'], preds := st.preds ++ [fcopy],
     ords := st.ords ++ [ocopy], strs := st.strs ++ [scopy, pcopy] })

/-- `QuerySet.filter(**kwargs)` on the heap: clone, then append each
compiled predicate to the clone's `_filters` list (mutation of the fresh
cell); a compile error propagates as the raised exception. -/
def filterH (st : Store) (i : Nat) (args : List FilterArg) :
    Except PyError (Nat × Store) :=
  let r := cloneH st i
  let o := (st.objs.get? i).getD defObj
  match compileArgs (compileFilterArg o.model) args with
  | .error e => .error e
  | .ok es =>
    let oj := (r.2.objs.get? r.1).getD defObj
    let cur := (r.2.preds.get? oj.filtersRef).getD []
    .ok (r.1, { r.2 with preds := r.2.preds.set oj.filtersRef (cur ++ es) })

/-- `QuerySet.exclude(**kwargs)` on the heap: same shape with negated
predicates. -/
def excludeH (st : Store) (i : Nat) (args : List FilterArg) :
    Except PyError (Nat × Store) :=
  let r := cloneH st i
  let o := (st.objs.get? i).getD defObj
  match compileArgs (compileExcludeArg o.model) args with
  | .error e => .error e
  | .ok es =>
    let oj := (r.2.objs.get? r.1).getD defObj
    let cur := (r.2.preds.get? oj.filtersRef).getD []
    .ok (r.1, { r.2 with preds := r.2.preds.set oj.filtersRef (cur ++ es) })

/-- Parse `order_by` arguments: a leading `-` means descending, and the
remaining name goes through `getattr(self.model, ...)`. -/
def parseOrderKeys (m : ModelSchema) : List String → Except PyError (List OrdKey)
  | [] => .ok []
  | f :: rest =>
    let fieldName := if f.startsWith "-" then f.drop 1 else f
    if fieldName ∈ m.fields then
      match parseOrderKeys m rest with
      | .error e => .error e
      | .ok ks => .ok ((fieldName, f.startsWith "-") :: ks)
    else .error (.attributeError fieldName)

/-- `QuerySet.order_by(*fields)` on the heap: clone, then append the
parsed keys to the clone's `_order_by` list. -/
def orderByH (st : Store) (i : Nat) (flds : List String) :
    Except PyError (Nat × Store) :=
  let r := cloneH st i
  let o := (st.objs.get? i).getD defObj
  match parseOrderKeys o.model flds with
  | .error e => .error e
  | .ok ks =>
    let oj := (r.2.objs.get? r.1).getD defObj
    let cur := (r.2.ords.get? oj.orderRef).getD []
    .ok (r.1, { r.2 with ords := r.2.ords.set oj.orderRef (cur ++ ks) })

/-- `QuerySet.limit(n)` on the heap: clone, then rebind the clone's
`_limit` attribute. -/
def limitH (st : Store) (i : Nat) (n : Nat) : Nat × Store :=
  let r := cloneH st i
  let oj := (r.2.objs.get? r.1).getD defObj
  (r.1, { r.2 with objs := r.2.objs.set r.1 { oj with qlimit := some n } })

/-- `QuerySet.offset(n)` on the heap. -/
def offsetH (st : Store) (i : Nat) (n : Nat) : Nat × Store :=
  let r := cloneH st i
  let oj := (r.2.objs.get? r.1).getD defObj
  (r.1, { r.2 with objs := r.2.objs.set r.1 { oj with qoffset := some n } })

/-- `QuerySet.distinct()` on the heap. -/
def distinctH (st : Store) (i : Nat) : Nat × Store :=
  let r := cloneH st i
  let oj := (r.2.objs.get? r.1).getD defObj
  (r.1, { r.2 with objs := r.2.objs.set r.1 { oj with qdistinct := true } })

/-! ### The migration engine (`fastjango/db/migrations.py`)

The DDL connection is the external collaborator: it is modelled as a
schema state `Db` with standard SQL DDL semantics (creating an existing
table / dropping a missing one is an error, `DROP TABLE` also drops the
table's indexes, each statement is atomic). -/

/-- One column definition, as in the dicts `CreateTable` receives. -/
structure ColumnDef where
  name : String
  ctype : String
  nullable : Bool := true
  primary_key : Bool := false
  unique : Bool := false
  default : Option String := none
deriving DecidableEq

/-- An index: its table, column list and uniqueness. -/
structure IndexDef where
  table : String
  columns : List String
  unique : Bool
deriving DecidableEq

/-- The schema state of the connected database. -/
structure Db where
  tables : List (String × List ColumnDef)
  indexes : List (String × IndexDef)
deriving DecidableEq

/-- DDL errors are surfaced as their message text. -/
abbrev SqlError := String

/-- First value bound to a key in an association list. -/
def lookupFirst (k : String) : List (String × α) → Option α
  | [] => none
  | x :: rest => if x.1 = k then some x.2 else lookupFirst k rest

/-- Update the first entry bound to a key. -/
def updateFirst (k : String) (f : α → α) : List (String × α) → List (String × α)
  | [] => []
  | x :: rest => if x.1 = k then (x.1, f x.2) :: rest else x :: updateFirst k f rest

/-- Remove the first entry bound to a key. -/
def eraseFirstKey (k : String) : List (String × α) → List (String × α)
  | [] => []
  | x :: rest => if x.1 = k then rest else x :: eraseFirstKey k rest

/-- Remove the first column with the given name. -/
def eraseFirstCol (c : String) : List ColumnDef → List ColumnDef
  | [] => []
  | cd :: rest => if cd.name = c then rest else cd :: eraseFirstCol c rest

/-- Does a table of this name exist? -/
def Db.hasTable (db : Db) (t : String) : Bool := (lookupFirst t db.tables).isSome

/-- Does an index of this name exist? -/
def Db.hasIndex (db : Db) (i : String) : Bool := (lookupFirst i db.indexes).isSome

/-- `CREATE TABLE t (...)`. -/
def Db.createTable (db : Db) (t : String) (cols : List ColumnDef) : Except SqlError Db :=
  if db.hasTable t then .error ("table " ++ t ++ " already exists")
  else .ok { db with tables := db.tables ++ [(t, cols)] }

/-- `DROP TABLE t` (also drops the table's indexes). -/
def Db.dropTable (db : Db) (t : String) : Except SqlError Db :=
  if db.hasTable t then
    .ok { tables := eraseFirstKey t db.tables,
          indexes := db.indexes.filter (fun p => !(p.2.table == t)) }
  else .error ("no such table: " ++ t)

/-- `ALTER TABLE t ADD COLUMN c ...`. -/
def Db.addColumn (db : Db) (t : String) (c : ColumnDef) : Except SqlError Db :=
  match lookupFirst t db.tables with
  | none => .error ("no such table: " ++ t)
  | some cols =>
    if cols.any (fun cd => cd.name == c.name) then
      .error ("duplicate column name: " ++ c.name)
    else .ok { db with tables := updateFirst t (fun cs => cs ++ [c]) db.tables }

/-- `ALTER TABLE t DROP COLUMN c`. -/
def Db.dropColumn (db : Db) (t c : String) : Except SqlError Db :=
  match lookupFirst t db.tables with
  | none => .error ("no such table: " ++ t)
  | some cols =>
    if cols.any (fun cd => cd.name == c) then
      .ok { db with tables := updateFirst t (eraseFirstCol c) db.tables }
    else .error ("no such column: " ++ c)

/-- `ALTER TABLE t ALTER COLUMN c TYPE ... / SET-DROP NOT NULL`. -/
def Db.alterColumn (db : Db) (t c : String) (newType : Option String)
    (newNullable : Option Bool) : Except SqlError Db :=
  match lookupFirst t db.tables with
  | none => .error ("no such table: " ++ t)
  | some cols =>
    let alterOne := fun (cd : ColumnDef) =>
      if cd.name = c then
        { cd with ctype := newType.getD cd.ctype,
                  nullable := newNullable.getD cd.nullable }
      else cd
    if cols.any (fun cd => cd.name == c) then
      .ok { db with tables := updateFirst t (List.map alterOne) db.tables }
    else .error ("no such column: " ++ c)

/-- `CREATE [UNIQUE] INDEX i ON t (...)`. -/
def Db.createIndex (db : Db) (t i : String) (cols : List String) (u : Bool) :
    Except SqlError Db :=
  if !db.hasTable t then .error ("no such table: " ++ t)
  else if db.hasIndex i then .error ("index " ++ i ++ " already exists")
  else .ok { db with indexes := db.indexes ++ [(i, ⟨t, cols, u⟩)] }

/-- `DROP INDEX i`. -/
def Db.dropIndex (db : Db) (i : String) : Except SqlError Db :=
  if db.hasIndex i then .ok { db with indexes := eraseFirstKey i db.indexes }
  else .error ("no such index: " ++ i)

/-- The tagged migration-operation variants (migrations.py 57-339),
carrying exactly the constructor data of the Python classes. -/
inductive MigrationOperation where
  | createTable (table_name : String) (columns : List ColumnDef)
  | dropTable (table_name : String)
  | addColumn (table_name column_name column_type : String)
      (nullable : Bool) (uniq : Bool) (default : Option String)
  | dropColumn (table_name column_name : String)
  | alterColumn (table_name column_name : String)
      (newType : Option String) (newNullable : Option Bool)
  | createIndex (table_name index_name : String) (columns : List String) (uniq : Bool)
  | dropIndex (index_name : String)
deriving DecidableEq

/-- `forward(engine)` of each operation: the DDL statement it executes. -/
def MigrationOperation.forward : MigrationOperation → Db → Except SqlError Db
  | .createTable t cols, db => db.createTable t cols
  | .dropTable t, db => db.dropTable t
  | .addColumn t c ty nn uq df, db =>
      db.addColumn t { name := c, ctype := ty, nullable := nn,
                       primary_key := false, unique := uq, default := df }
  | .dropColumn t c, db => db.dropColumn t c
  | .alterColumn t c ty nn, db =>
      match ty, nn with
      | none, none => .ok db
      | _, _ => db.alterColumn t c ty nn
  | .createIndex t i cols u, db => db.createIndex t i cols u
  | .dropIndex i, db => db.dropIndex i

/-- `reverse(engine)` of each operation.  `DropTable`, `DropColumn`,
`AlterColumn` and `DropIndex` only print a "Cannot reverse" warning and
leave the schema unchanged. -/
def MigrationOperation.reverse : MigrationOperation → Db → Except SqlError Db
  | .createTable t _, db => db.dropTable t
  | .dropTable _, db => .ok db
  | .addColumn t c _ _ _ _, db => db.dropColumn t c
  | .dropColumn _ _, db => .ok db
  | .alterColumn _ _ _ _, db => .ok db
  | .createIndex _ i _ _, db => db.dropIndex i
  | .dropIndex _, db => .ok db

/-- The three operations whose `reverse` undoes their `forward`. -/
def MigrationOperation.isCreateOp : MigrationOperation → Bool
  | .createTable _ _ => true
  | .addColumn _ _ _ _ _ _ => true
  | .createIndex _ _ _ _ => true
  | _ => false

/-- Run `forward` over a list of operations, stopping at the first
raised error; the schema keeps the effects of the operations already
executed (each statement commits separately). -/
def forwardAll : List MigrationOperation → Db → Db × Option SqlError
  | [], db => (db, none)
  | op :: ops, db =>
    match op.forward db with
    | .ok db' => forwardAll ops db'
    | .error e => (db, some e)

/-- Run `reverse` over a list of operations, same error discipline. -/
def reverseAll : List MigrationOperation → Db → Db × Option SqlError
  | [], db => (db, none)
  | op :: ops, db =>
    match op.reverse db with
    | .ok db' => reverseAll ops db'
    | .error e => (db, some e)

/-- A migration: name, app label, ordered operations. -/
structure Migration where
  name : String
  app_label : String
  operations : List MigrationOperation
deriving DecidableEq

/-- `Migration.apply` (migrations.py 361-374): run each operation's
`forward` in order; an exception propagates immediately (`raise`),
leaving earlier operations' effects in place. -/
def Migration.apply (m : Migration) (db : Db) : Db × Option SqlError :=
  forwardAll m.operations db

/-- `Migration.unapply` (migrations.py 376-389): run each operation's
`reverse` over `reversed(self.operations)`. -/
def Migration.unapply (m : Migration) (db : Db) : Db × Option SqlError :=
  reverseAll m.operations.reverse db

/-- The engine plus the `fastjango_migrations` ledger table. -/
structure MigState where
  db : Db
  ledger : List (String × String)
deriving DecidableEq

/-- `apply_migrations(migrations, engine)` (migrations.py 560-581): for
each migration in order, skip it when its `(app_label, name)` pair is in
the ledger; otherwise run `Migration.apply` and, only on success, append
the pair to the ledger (`record_applied`).  Returns the final state, the
pairs applied during this run, and the propagated error if any. -/
def apply_migrations : List Migration → MigState → MigState × List (String × String) × Option SqlError
  | [], s => (s, [], none)
  | m :: rest, s =>
    if (m.app_label, m.name) ∈ s.ledger then apply_migrations rest s
    else
      match m.apply s.db with
      | (db', some e) => ({ db := db', ledger := s.ledger }, [], some e)
      | (db', none) =>
        let s' : MigState := { db := db', ledger := s.ledger ++ [(m.app_label, m.name)] }
        let r := apply_migrations rest s'
        (r.1, (m.app_label, m.name) :: r.2.1, r.2.2)

/-! ### Instance deletion (`Model.delete`, models.py 320-329) -/

/-- Embeds `Model.delete`: `session.delete(self); session.commit()`.
The session is the external provider (SQLAlchemy): deleting an instance
that is not persisted raises `InvalidRequestError`, and an instance with
no primary-key value is never persisted; otherwise the commit removes
the row bearing the instance's primary key. -/
def modelDelete (pkField : String) (inst : Row) (s : List Row) :
    Except PyError (List Row) :=
  match inst.getF pkField with
  | none => .error (.invalidRequestError "Instance is not persisted")
  | some k => .ok (s.filter (fun r => decide (r.getF pkField ≠ some k)))

end FastJango

namespace FastJango

/-! ### Concrete fixtures used by witnesses and evaluations -/

/-- The spec's `Product` model: declared fields plus the automatic id. -/
def productModel : ModelSchema := ⟨["id", "name", "price"]⟩

/-- A stored `Widget` row with the given primary key. -/
def wrow (i : Int) : Row := [("id", .int i), ("name", .str "Widget")]

/-- Exceptions the lookup compiler can actually raise. -/
def benignErr : PyError → Bool
  | .valueError _ => true
  | .typeError _ => true
  | .indexError _ => true
  | .attributeError _ => true
  | _ => false

/-- Did this filter call raise the spec's `UnknownLookupError`? -/
def isUnknownLookupRaise : Except PyError QSpec → Bool
  | .error (.unknownLookupError _) => true
  | _ => false

/-- A one-object store: the base queryset `Product.objects.all()`. -/
def st0 : Store :=
  { objs := [{ model := productModel, filtersRef := 0, orderRef := 0,
               qlimit := none, qoffset := none, qdistinct := false,
               selRef := 0, preRef := 1 }],
    preds := [[]], ords := [[]], strs := [[], []] }

/-- Concrete kwargs for the immutability witness. -/
def args0 : List FilterArg := [("name", .val (.str "Widget"))]

/-- Concrete storage for the immutability witness. -/
def srows : List Row := [wrow 1, wrow 2, [("id", .int 3), ("name", .str "Gadget")]]

/-- Store resulting from a successful chaining call (fallback: empty). -/
def resStore (x : Except PyError (Nat × Store)) : Store :=
  match x with
  | .ok p => p.2
  | .error _ => ⟨[], [], [], []⟩

/-- An integer primary-key column. -/
def cId : ColumnDef := { name := "id", ctype := "INTEGER", primary_key := true }

/-- The widgets `sku` column of the spec's concrete scenario C. -/
def cSku : ColumnDef := { name := "sku", ctype := "VARCHAR(20)", nullable := false }

/-- The empty schema. -/
def db0 : Db := ⟨[], []⟩

/-- The spec's scenario-C operation. -/
def widgetsOp : MigrationOperation := .createTable "widgets" [cId, cSku]

/-- Two distinct concrete migrations for the idempotence witness. -/
def migA : Migration := ⟨"0001_initial", "shop", [.createTable "t1" [cId]]⟩

/-- Second concrete migration. -/
def migB : Migration := ⟨"0002_more", "shop", [.createTable "t2" [cId]]⟩

/-- Fresh migration state: empty schema, empty ledger. -/
def ms0 : MigState := ⟨db0, []⟩

end FastJango

namespace FastJango

/-! ### Which exceptions the lookup compiler can raise -/

/-- `expectVal` raises only `TypeError`. -/
theorem expectVal_error {a : PyArg} {e : PyError} (h : expectVal a = .error e) :
    benignErr e = true := by
  cases a with
  | val v => exact absurd h (by simp [expectVal])
  | list vs => simp only [expectVal] at h; cases h; rfl

/-- An `Except.map` image is an error only if the base is. -/
theorem map_error {α β : Type} {x : Except PyError α} {f : α → β} {e : PyError}
    (h : x.map f = .error e) : x = .error e := by
  cases x <;> simp_all [Except.map]

/-- `getattr` raises only `AttributeError`. -/
theorem getattrCol_error_benign {m : ModelSchema} {fn : String} {e : PyError}
    (h : getattrCol m fn = .error e) : benignErr e = true := by
  unfold getattrCol at h
  split at h
  · simp_all
  · cases h; rfl

set_option maxHeartbeats 1000000 in
/-- Every exception `_build_lookup_filter` raises is a `ValueError`,
`TypeError`, `IndexError` or `AttributeError` — in particular never the
model's `DoesNotExist`. -/
theorem buildLookupFilter_error_benign (m : ModelSchema) (fn lk : String) (a : PyArg)
    (e : PyError) (h : buildLookupFilter m fn lk a = .error e) : benignErr e = true := by
  unfold buildLookupFilter at h
  cases hg : getattrCol m fn with
  | error e' =>
    rw [hg] at h
    cases h
    exact getattrCol_error_benign hg
  | ok col =>
    rw [hg] at h
    split at h
    case h_1 => rename_i heq; exact absurd heq (by simp)
    case h_2 =>
      by_cases c1 : lk = "exact"
      · rw [if_pos c1] at h
        exact expectVal_error (map_error h)
      rw [if_neg c1] at h
      by_cases c2 : lk = "iexact"
      · rw [if_pos c2] at h
        exact expectVal_error (map_error h)
      rw [if_neg c2] at h
      by_cases c3 : lk = "contains"
      · rw [if_pos c3] at h
        exact expectVal_error (map_error h)
      rw [if_neg c3] at h
      by_cases c4 : lk = "icontains"
      · rw [if_pos c4] at h
        exact expectVal_error (map_error h)
      rw [if_neg c4] at h
      by_cases c5 : lk = "in"
      · rw [if_pos c5] at h
        cases a with
        | val v => cases h; rfl
        | list vs => exact absurd h (by simp)
      rw [if_neg c5] at h
      by_cases c6 : lk = "gt"
      · rw [if_pos c6] at h
        exact expectVal_error (map_error h)
      rw [if_neg c6] at h
      by_cases c7 : lk = "gte"
      · rw [if_pos c7] at h
        exact expectVal_error (map_error h)
      rw [if_neg c7] at h
      by_cases c8 : lk = "lt"
      · rw [if_pos c8] at h
        exact expectVal_error (map_error h)
      rw [if_neg c8] at h
      by_cases c9 : lk = "lte"
      · rw [if_pos c9] at h
        exact expectVal_error (map_error h)
      rw [if_neg c9] at h
      by_cases c10 : lk = "startswith"
      · rw [if_pos c10] at h
        exact expectVal_error (map_error h)
      rw [if_neg c10] at h
      by_cases c11 : lk = "istartswith"
      · rw [if_pos c11] at h
        exact expectVal_error (map_error h)
      rw [if_neg c11] at h
      by_cases c12 : lk = "endswith"
      · rw [if_pos c12] at h
        exact expectVal_error (map_error h)
      rw [if_neg c12] at h
      by_cases c13 : lk = "iendswith"
      · rw [if_pos c13] at h
        exact expectVal_error (map_error h)
      rw [if_neg c13] at h
      by_cases c14 : lk = "range"
      · rw [if_pos c14] at h
        cases a with
        | val v => cases h; rfl
        | list vs =>
          rcases vs with _ | ⟨lo, _ | ⟨hi, vrest⟩⟩
          · cases h; rfl
          · cases h; rfl
          · exact absurd h (by simp)
      rw [if_neg c14] at h
      by_cases c15 : lk = "year"
      · rw [if_pos c15] at h
        exact expectVal_error (map_error h)
      rw [if_neg c15] at h
      by_cases c16 : lk = "month"
      · rw [if_pos c16] at h
        exact expectVal_error (map_error h)
      rw [if_neg c16] at h
      by_cases c17 : lk = "day"
      · rw [if_pos c17] at h
        exact expectVal_error (map_error h)
      rw [if_neg c17] at h
      by_cases c18 : lk = "week"
      · rw [if_pos c18] at h
        exact expectVal_error (map_error h)
      rw [if_neg c18] at h
      by_cases c19 : lk = "week_day"
      · rw [if_pos c19] at h
        exact expectVal_error (map_error h)
      rw [if_neg c19] at h
      by_cases c20 : lk = "quarter"
      · rw [if_pos c20] at h
        exact expectVal_error (map_error h)
      rw [if_neg c20] at h
      by_cases c21 : lk = "time"
      · rw [if_pos c21] at h
        exact expectVal_error (map_error h)
      rw [if_neg c21] at h
      by_cases c22 : lk = "hour"
      · rw [if_pos c22] at h
        exact expectVal_error (map_error h)
      rw [if_neg c22] at h
      by_cases c23 : lk = "minute"
      · rw [if_pos c23] at h
        exact expectVal_error (map_error h)
      rw [if_neg c23] at h
      by_cases c24 : lk = "second"
      · rw [if_pos c24] at h
        exact expectVal_error (map_error h)
      rw [if_neg c24] at h
      by_cases c25 : lk = "isnull"
      · rw [if_pos c25] at h
        split at h <;> exact absurd h (by simp)
      rw [if_neg c25] at h
      by_cases c26 : lk = "regex"
      · rw [if_pos c26] at h
        exact expectVal_error (map_error h)
      rw [if_neg c26] at h
      by_cases c27 : lk = "iregex"
      · rw [if_pos c27] at h
        exact expectVal_error (map_error h)
      rw [if_neg c27] at h
      cases h; rfl

/-- Lifting of error benignity through one kwarg compilation. -/
theorem compileFilterArg_error_benign (m : ModelSchema) (a : FilterArg) (e : PyError)
    (h : compileFilterArg m a = .error e) : benignErr e = true := by
  unfold compileFilterArg at h
  split at h
  · exact buildLookupFilter_error_benign _ _ _ _ _ h
  · cases hg : getattrCol m a.1 with
    | error e' =>
      simp only [hg] at h
      cases h
      exact getattrCol_error_benign hg
    | ok col =>
      simp only [hg] at h
      exact expectVal_error (map_error h)

/-- Lifting of error benignity through a kwargs list. -/
theorem compileArgs_error_benign (f : FilterArg → Except PyError SqlExpr)
    (hf : ∀ a e, f a = .error e → benignErr e = true) :
    ∀ (args : List FilterArg) (e : PyError),
      compileArgs f args = .error e → benignErr e = true := by
  intro args
  induction args with
  | nil => intro e h; simp [compileArgs] at h
  | cons a rest ih =>
    intro e h
    cases hfa : f a with
    | error e' =>
      simp only [compileArgs, hfa] at h
      cases h
      exact hf a _ hfa
    | ok ex =>
      cases hca : compileArgs f rest with
      | error e' =>
        simp only [compileArgs, hfa, hca] at h
        cases h
        exact ih _ hca
      | ok es =>
        simp only [compileArgs, hfa, hca] at h
        exact Except.noConfusion h

/-- `QuerySet.filter` raises only compilation errors. -/
theorem filter_error_benign {q : QSpec} {args : List FilterArg} {e : PyError}
    (h : q.filter args = .error e) : benignErr e = true := by
  unfold QSpec.filter at h
  cases hc : compileArgs (compileFilterArg q.model) args with
  | error e' =>
    simp only [hc] at h
    cases h
    exact compileArgs_error_benign _ (fun a e => compileFilterArg_error_benign q.model a e) args _ hc
  | ok es =>
    simp only [hc] at h
    exact Except.noConfusion h

/-- `QuerySet.get` raises only compilation errors — never
`DoesNotExist` and never `MultipleObjectsReturned`. -/
theorem get_error_benign {q : QSpec} {args : List FilterArg} {s : List Row} {e : PyError}
    (h : q.get args s = .error e) : benignErr e = true := by
  unfold QSpec.get at h
  cases hf : q.filter args with
  | error e' =>
    simp only [hf] at h
    cases h
    exact filter_error_benign hf
  | ok q' =>
    simp only [hf] at h
    exact Except.noConfusion h

/-! ### Claim theorems -/

/-- Claim C1 (code bug): `get()` performs no cardinality check.  On zero
matching rows it returns `None` instead of raising `DoesNotExist`, and
on two matching rows it silently returns the first instead of raising
`MultipleObjectsReturned` — contradicting the docstrings of
`QuerySet.get` and `Manager.get` and the spec.  Both behaviors are
evaluated here at the failing inputs. -/
theorem get_no_cardinality_check :
    managerGet productModel [("name", .val (.str "Widget"))] [] = .ok none
    ∧ managerGet productModel [("name", .val (.str "Widget"))] [wrow 1, wrow 2]
        = .ok (some (wrow 1)) :=
  ⟨rfl, rfl⟩

/-- Claim C2 (code bug): because `get()` never raises `DoesNotExist`,
the `except self.model.DoesNotExist` branch of `get_or_create` is dead:
the call always returns `(self.get(**kwargs), False)` with the storage
untouched, and in particular on empty storage it returns
`(None, False)` and creates nothing — so the second call of the spec's
scenario D sees exactly the same empty storage. -/
theorem get_or_create_never_creates :
    (∀ (q : QSpec) (args : List FilterArg) (defaults : List (String × PyVal))
        (s : List Row),
      q.get_or_create args defaults s
        = (q.get args s).map (fun o => ((o, false), s)))
    ∧ (initQS productModel).get_or_create [("name", .val (.str "Widget"))]
        [("price", .str "1.00")] [] = .ok ((none, false), []) := by
  refine ⟨?_, rfl⟩
  intro q args defaults s
  unfold QSpec.get_or_create
  cases hg : q.get args s with
  | ok o => simp [Except.map]
  | error e =>
    have hb := get_error_benign hg
    have hd : isDoesNotExistErr e = false := by
      cases e <;> simp_all [benignErr, isDoesNotExistErr]
    simp [Except.map, hd]

/-- Claim C3 (counterexample): an unrecognized lookup suffix raises
`ValueError("Unknown lookup: ...")`, not the spec's
`UnknownLookupError` (no such class exists in the source). -/
theorem unknown_lookup_not_unknown_lookup_error :
    isUnknownLookupRaise
        ((initQS productModel).filter [("name__bogus", .val (.int 1))]) = false
    ∧ (initQS productModel).filter [("name__bogus", .val (.int 1))]
        = .error (.valueError "Unknown lookup: bogus") :=
  ⟨rfl, rfl⟩

/-- Claim C3 (amended): for every filter key that splits as
`field__suffix` with a declared field and a suffix outside the
recognized lookup names, `filter` raises `ValueError` with message
`Unknown lookup: <suffix>` during predicate compilation — `filter`
takes no session or storage argument, so the failure occurs before any
SQL is issued. -/
theorem unknown_lookup_raises_value_error
    (q : QSpec) (key fieldName suffix : String) (a : PyArg) (rest : List FilterArg)
    (hsplit : splitLookup key = some (fieldName, suffix))
    (hfield : fieldName ∈ q.model.fields)
    (hsuffix : suffix ∉ recognizedLookups) :
    q.filter ((key, a) :: rest)
      = .error (.valueError ("Unknown lookup: " ++ suffix)) := by
  simp only [recognizedLookups, List.mem_cons, List.not_mem_nil, or_false, not_or] at hsuffix
  obtain ⟨n1, n2, n3, n4, n5, n6, n7, n8, n9, n10, n11, n12, n13, n14, n15, n16, n17, n18, n19, n20, n21, n22, n23, n24, n25, n26, n27⟩ := hsuffix
  have hg : getattrCol q.model fieldName = .ok fieldName := by
    unfold getattrCol; rw [if_pos hfield]
  have hb : buildLookupFilter q.model fieldName suffix a
      = .error (.valueError ("Unknown lookup: " ++ suffix)) := by
    unfold buildLookupFilter
    simp only [hg]
    rw [if_neg n1, if_neg n2, if_neg n3, if_neg n4, if_neg n5, if_neg n6, if_neg n7, if_neg n8, if_neg n9, if_neg n10, if_neg n11, if_neg n12, if_neg n13, if_neg n14, if_neg n15, if_neg n16, if_neg n17, if_neg n18, if_neg n19, if_neg n20, if_neg n21, if_neg n22, if_neg n23, if_neg n24, if_neg n25, if_neg n26, if_neg n27]
  have hc : compileFilterArg q.model (key, a)
      = .error (.valueError ("Unknown lookup: " ++ suffix)) := by
    unfold compileFilterArg
    simp only [hsplit]
    exact hb
  unfold QSpec.filter
  simp only [compileArgs, hc]

/-- Claim C3 (witness): the amended theorem applied to the concrete key
`name__bogus` on the `Product` model. -/
theorem unknown_lookup_raises_value_error_witness :
    (initQS productModel).filter [("name__bogus", .val (.int 1))]
      = .error (.valueError ("Unknown lookup: " ++ "bogus")) :=
  unknown_lookup_raises_value_error (initQS productModel) "name__bogus" "name" "bogus"
    (.val (.int 1)) [] (by decide) (by decide) (by decide)

/-- Claim C10: `_build_query`, `values` and `values_list` test `_limit`
and `_offset` for truthiness, so `limit(0)`/`offset(0)` execute exactly
as if no limit or offset had been set: every matching row is returned. -/
theorem limit_offset_zero_noop :
    ∀ (q : QSpec) (flds : List String) (s : List Row),
      ((q.limit 0).all s = ({ q with _limit := none }).all s)
      ∧ ((q.offset 0).all s = ({ q with _offset := none }).all s)
      ∧ ((q.limit 0).values flds s = ({ q with _limit := none }).values flds s)
      ∧ ((q.offset 0).values flds s = ({ q with _offset := none }).values flds s)
      ∧ ((q.limit 0).values_list flds s = ({ q with _limit := none }).values_list flds s)
      ∧ ((q.offset 0).values_list flds s
          = ({ q with _offset := none }).values_list flds s) := by
  intro q flds s
  refine ⟨?_, ?_, ?_, ?_, ?_, ?_⟩ <;>
    simp [QSpec.all, QSpec.values, QSpec.values_list, QSpec.limit, QSpec.offset,
          QSpec.runCore, applyLimit, applyOffset]

end FastJango

namespace FastJango

/-! ### Exclude semantics (claim C4) -/

/-- One excluded kwarg versus the negation of the corresponding filtered
kwarg: they raise the same exception, or compile to predicates that
evaluate identically on every row (`field != v` versus
`not_(field == v)`). -/
theorem excludeArg_vs_notFilterArg (m : ModelSchema) (a : FilterArg) :
    (∃ e, compileExcludeArg m a = .error e ∧ compileNotFilterArg m a = .error e)
    ∨ (∃ x y, compileExcludeArg m a = .ok x ∧ compileNotFilterArg m a = .ok y
        ∧ ∀ r, x.eval r = y.eval r) := by
  unfold compileExcludeArg compileNotFilterArg compileFilterArg
  cases hs : splitLookup a.1 with
  | some p =>
    obtain ⟨fieldName, lookup⟩ := p
    simp only [hs]
    cases hb : buildLookupFilter m fieldName lookup a.2 with
    | error e => exact .inl ⟨e, by simp [Except.map, hb], by simp [Except.map, hb]⟩
    | ok x =>
      exact .inr ⟨.notE x, .notE x, by simp [Except.map, hb],
        by simp [Except.map, hb], fun r => rfl⟩
  | none =>
    simp only [hs]
    cases hg : getattrCol m a.1 with
    | error e => exact .inl ⟨e, by simp [Except.map, hg], by simp [Except.map, hg]⟩
    | ok col =>
      cases hv : expectVal a.2 with
      | error e =>
        exact .inl ⟨e, by simp [Except.map, hg, hv], by simp [Except.map, hg, hv]⟩
      | ok v =>
        refine .inr ⟨.neE col v, .notE (.eqE col v), by simp [Except.map, hg, hv],
          by simp [Except.map, hg, hv], ?_⟩
        intro r
        cases hr : Row.getF r col <;> simp [SqlExpr.eval, hr, bne]

/-- List lifting of the previous lemma over a whole kwargs call. -/
theorem compileArgs_exclude_vs_not (m : ModelSchema) (args : List FilterArg) :
    (∃ e, compileArgs (compileExcludeArg m) args = .error e
        ∧ compileArgs (compileNotFilterArg m) args = .error e)
    ∨ (∃ xs ys, compileArgs (compileExcludeArg m) args = .ok xs
        ∧ compileArgs (compileNotFilterArg m) args = .ok ys
        ∧ List.Forall₂ (fun x y => ∀ r, SqlExpr.eval x r = SqlExpr.eval y r) xs ys) := by
  induction args with
  | nil => exact .inr ⟨[], [], rfl, rfl, .nil⟩
  | cons a rest ih =>
    rcases excludeArg_vs_notFilterArg m a with ⟨e, h1, h2⟩ | ⟨x, y, h1, h2, hxy⟩
    · exact .inl ⟨e, by simp [compileArgs, h1], by simp [compileArgs, h2]⟩
    · rcases ih with ⟨e, h3, h4⟩ | ⟨xs, ys, h3, h4, hxys⟩
      · exact .inl ⟨e, by simp [compileArgs, h1, h3], by simp [compileArgs, h2, h4]⟩
      · exact .inr ⟨x :: xs, y :: ys, by simp [compileArgs, h1, h3],
          by simp [compileArgs, h2, h4], .cons hxy hxys⟩

/-- `WHERE`-conjunction respects pointwise evaluation equality. -/
theorem keepRow_congr {fs gs : List SqlExpr}
    (h : List.Forall₂ (fun x y => ∀ r, SqlExpr.eval x r = SqlExpr.eval y r) fs gs) :
    ∀ r, keepRow fs r = keepRow gs r := by
  intro r
  induction h with
  | nil => rfl
  | cons hxy _ ih =>
    simp only [keepRow, List.all_cons] at ih ⊢
    rw [hxy r, ih]

/-- Execution only depends on the filters through their evaluation. -/
theorem all_congr_filters (m : ModelSchema) (fs gs : List SqlExpr) (ob : List OrdKey)
    (lim off : Option Nat) (dis : Bool) (s : List Row)
    (h : List.Forall₂ (fun x y => ∀ r, SqlExpr.eval x r = SqlExpr.eval y r) fs gs) :
    QSpec.all ⟨m, fs, ob, lim, off, dis⟩ s = QSpec.all ⟨m, gs, ob, lim, off, dis⟩ s := by
  have hf : s.filter (keepRow fs) = s.filter (keepRow gs) :=
    List.filter_congr (fun a _ => keepRow_congr h a)
  unfold QSpec.all QSpec.runCore
  simp only [hf]

/-- Claim C4: chained excludes are independently negated conjuncts.
`Q.exclude(A).exclude(B)` returns exactly the rows of
`Q.filter(NOT A).filter(NOT B)` — for every queryset, every pair of
kwarg lists and every storage, including equality of any raised
exception. -/
theorem exclude_exclude_eq_filter_not_filter_not :
    ∀ (q : QSpec) (A B : List FilterArg) (s : List Row),
      ((q.exclude A).bind (fun q1 => q1.exclude B)).map (fun q2 => q2.all s)
        = ((q.filterNotSpec A).bind (fun q1 => q1.filterNotSpec B)).map
            (fun q2 => q2.all s) := by
  intro q A B s
  unfold QSpec.exclude QSpec.filterNotSpec
  rcases compileArgs_exclude_vs_not q.model A with ⟨e, h1, h2⟩ | ⟨xs, ys, h1, h2, hxy⟩
  · simp [h1, h2, Except.bind, Except.map]
  · simp only [h1, h2, Except.bind, Except.map]
    rcases compileArgs_exclude_vs_not q.model B with ⟨e, h3, h4⟩ | ⟨xs2, ys2, h3, h4, hxy2⟩
    · simp [h3, h4, Except.bind, Except.map]
    · simp only [h3, h4, Except.bind, Except.map]
      congr 1
      have hfil : List.Forall₂ (fun x y => ∀ r, SqlExpr.eval x r = SqlExpr.eval y r)
          ((q._filters ++ xs) ++ xs2) ((q._filters ++ ys) ++ ys2) := by
        refine List.rel_append (List.rel_append ?_ hxy) hxy2
        exact (List.forall₂_same).2 (fun x _ r => rfl)
      exact all_congr_filters q.model _ _ q._order_by q._limit q._offset q._distinct s hfil

end FastJango

namespace FastJango

/-! ### QuerySet chaining never mutates the receiver (claim C5) -/

/-- Reading below the old length is unaffected by appending. -/
theorem get?_append_left {α : Type} :
    ∀ (l₁ : List α) (l₂ : List α) (i : Nat), i < l₁.length →
      (l₁ ++ l₂).get? i = l₁.get? i := by
  intro l₁
  induction l₁ with
  | nil => intro l₂ i h; exact absurd h (by simp)
  | cons x xs ih =>
    intro l₂ i h
    cases i with
    | zero => rfl
    | succ i' => exact ih l₂ i' (Nat.lt_of_succ_lt_succ h)

/-- Reading the first appended cell. -/
theorem get?_append_length {α : Type} :
    ∀ (l t : List α) (x : α), (l ++ x :: t).get? l.length = some x := by
  intro l
  induction l with
  | nil => intro t x; rfl
  | cons y ys ih => intro t x; exact ih t x

/-- Writing the first appended cell. -/
theorem set_append_length {α : Type} :
    ∀ (l t : List α) (x y : α), (l ++ x :: t).set l.length y = l ++ y :: t := by
  intro l
  induction l with
  | nil => intro t x y; rfl
  | cons z zs ih => intro t x y; simp [List.set, ih t x y]

/-- A successful indexed read implies the index is in range. -/
theorem get?_some_lt {α : Type} :
    ∀ (l : List α) (i : Nat) (a : α), l.get? i = some a → i < l.length := by
  intro l
  induction l with
  | nil => intro i a h; exact Option.noConfusion h
  | cons x xs ih =>
    intro i a h
    cases i with
    | zero => exact Nat.succ_pos _
    | succ i' => exact Nat.succ_lt_succ (ih i' a h)

/-- Unpacking of object validity. -/
theorem validAt_get {st : Store} {i : Nat} (h : st.validAt i = true) :
    ∃ o, st.objs.get? i = some o ∧ o.filtersRef < st.preds.length
      ∧ o.orderRef < st.ords.length ∧ o.selRef < st.strs.length
      ∧ o.preRef < st.strs.length ∧ i < st.objs.length := by
  unfold Store.validAt at h
  cases ho : st.objs.get? i with
  | none => rw [ho] at h; exact Bool.noConfusion h
  | some o =>
    rw [ho] at h
    simp only [Bool.and_eq_true, decide_eq_true_eq] at h
    exact ⟨o, rfl, h.1.1.1, h.1.1.2, h.1.2, h.2, get?_some_lt _ _ _ ho⟩

/-- Any store extension of the allocation shape produced by `_clone`
(appended object, appended list cells) leaves every valid existing
object's observable state untouched. -/
theorem readQS_grow (st : Store) (i : Nat) (h : st.validAt i = true)
    (a : QSObjH) (b : List SqlExpr) (c : List OrdKey) (d e : List String) :
    readQS { objs := st.objs ++ [a], preds := st.preds ++ [b],
             ords := st.ords ++ [c], strs := st.strs ++ [d, e] } i = readQS st i := by
  obtain ⟨o, ho, h1, h2, h3, h4, hi⟩ := validAt_get h
  unfold readQS
  rw [get?_append_left st.objs [a] i hi, ho]
  simp only [Option.map_some']
  rw [get?_append_left st.preds [b] o.filtersRef h1,
      get?_append_left st.ords [c] o.orderRef h2,
      get?_append_left st.strs [d, e] o.selRef h3,
      get?_append_left st.strs [d, e] o.preRef h4]

set_option maxHeartbeats 1000000 in
/-- Claim C5: every chaining call (`filter`, `exclude`, `order_by`,
`limit`, `offset`, `distinct`) allocates a new QuerySet object (its id
is the fresh `st.objs.length`, never the receiver's) and leaves the
receiver's observable state — filters, ordering, limit, offset,
distinct flag, select/prefetch lists — unchanged; in particular
`Q.all()` evaluated after the call returns the same rows as before. -/
theorem queryset_chaining_immutable :
    ∀ (st : Store) (i : Nat) (args : List FilterArg) (flds : List String)
      (n k : Nat) (s : List Row),
      st.validAt i = true →
      ((∀ j st', filterH st i args = .ok (j, st') →
          j = st.objs.length ∧ j ≠ i ∧ readQS st' i = readQS st i
            ∧ allH st' i s = allH st i s)
       ∧ (∀ j st', excludeH st i args = .ok (j, st') →
          j = st.objs.length ∧ j ≠ i ∧ readQS st' i = readQS st i
            ∧ allH st' i s = allH st i s)
       ∧ (∀ j st', orderByH st i flds = .ok (j, st') →
          j = st.objs.length ∧ j ≠ i ∧ readQS st' i = readQS st i
            ∧ allH st' i s = allH st i s)
       ∧ ((limitH st i n).1 = st.objs.length ∧ (limitH st i n).1 ≠ i
            ∧ readQS (limitH st i n).2 i = readQS st i
            ∧ allH (limitH st i n).2 i s = allH st i s)
       ∧ ((offsetH st i k).1 = st.objs.length ∧ (offsetH st i k).1 ≠ i
            ∧ readQS (offsetH st i k).2 i = readQS st i
            ∧ allH (offsetH st i k).2 i s = allH st i s)
       ∧ ((distinctH st i).1 = st.objs.length ∧ (distinctH st i).1 ≠ i
            ∧ readQS (distinctH st i).2 i = readQS st i
            ∧ allH (distinctH st i).2 i s = allH st i s)) := by
  intro st i args flds n k s hval
  obtain ⟨o, ho, hf1, hf2, hf3, hf4, hi⟩ := validAt_get hval
  refine ⟨?_, ?_, ?_, ?_, ?_, ?_⟩
  · intro j st' heq
    simp only [filterH, cloneH] at heq
    cases hc : compileArgs (compileFilterArg ((st.objs.get? i).getD defObj).model) args with
    | error e => rw [hc] at heq; exact Except.noConfusion heq
    | ok es =>
      rw [hc] at heq
      simp only [get?_append_length, Option.getD_some, set_append_length] at heq
      simp only [Except.ok.injEq, Prod.mk.injEq] at heq
      obtain ⟨hj, hst⟩ := heq
      subst hj
      subst hst
      refine ⟨rfl, by omega, readQS_grow st i hval _ _ _ _ _, ?_⟩
      simp only [allH, readQS_grow st i hval _ _ _ _ _]
  · intro j st' heq
    simp only [excludeH, cloneH] at heq
    cases hc : compileArgs (compileExcludeArg ((st.objs.get? i).getD defObj).model) args with
    | error e => rw [hc] at heq; exact Except.noConfusion heq
    | ok es =>
      rw [hc] at heq
      simp only [get?_append_length, Option.getD_some, set_append_length] at heq
      simp only [Except.ok.injEq, Prod.mk.injEq] at heq
      obtain ⟨hj, hst⟩ := heq
      subst hj
      subst hst
      refine ⟨rfl, by omega, readQS_grow st i hval _ _ _ _ _, ?_⟩
      simp only [allH, readQS_grow st i hval _ _ _ _ _]
  · intro j st' heq
    simp only [orderByH, cloneH] at heq
    cases hc : parseOrderKeys ((st.objs.get? i).getD defObj).model flds with
    | error e => rw [hc] at heq; exact Except.noConfusion heq
    | ok ks =>
      rw [hc] at heq
      simp only [get?_append_length, Option.getD_some, set_append_length] at heq
      simp only [Except.ok.injEq, Prod.mk.injEq] at heq
      obtain ⟨hj, hst⟩ := heq
      subst hj
      subst hst
      refine ⟨rfl, by omega, readQS_grow st i hval _ _ _ _ _, ?_⟩
      simp only [allH, readQS_grow st i hval _ _ _ _ _]
  · simp only [limitH, cloneH, get?_append_length, Option.getD_some, set_append_length]
    refine ⟨by trivial, by omega, readQS_grow st i hval _ _ _ _ _, ?_⟩
    simp only [allH, readQS_grow st i hval _ _ _ _ _]
  · simp only [offsetH, cloneH, get?_append_length, Option.getD_some, set_append_length]
    refine ⟨by trivial, by omega, readQS_grow st i hval _ _ _ _ _, ?_⟩
    simp only [allH, readQS_grow st i hval _ _ _ _ _]
  · simp only [distinctH, cloneH, get?_append_length, Option.getD_some, set_append_length]
    refine ⟨by trivial, by omega, readQS_grow st i hval _ _ _ _ _, ?_⟩
    simp only [allH, readQS_grow st i hval _ _ _ _ _]

end FastJango

namespace FastJango

/-- Claim C5 (witness): the immutability theorem applied to a concrete
one-object store, concrete kwargs, and concrete storage, for a filter
call, a limit call and a distinct call. -/
theorem queryset_chaining_immutable_witness :
    (readQS (resStore (filterH st0 0 args0)) 0 = readQS st0 0
      ∧ allH (resStore (filterH st0 0 args0)) 0 srows = allH st0 0 srows)
    ∧ (readQS (limitH st0 0 5).2 0 = readQS st0 0
      ∧ allH (limitH st0 0 5).2 0 srows = allH st0 0 srows)
    ∧ readQS (distinctH st0 0).2 0 = readQS st0 0 := by
  have h := queryset_chaining_immutable st0 0 args0 ["-id"] 5 3 srows (by decide)
  have hf := h.1 1 (resStore (filterH st0 0 args0)) (by rfl)
  exact ⟨⟨hf.2.2.1, hf.2.2.2⟩, ⟨h.2.2.2.1.2.2.1, h.2.2.2.1.2.2.2⟩,
    h.2.2.2.2.2.2.2.1⟩

end FastJango

namespace FastJango

/-! ### Migration apply stops at the first failing operation (claim C7) -/

/-- `forward` execution over an appended list: the first segment runs
first, and an error in it short-circuits the second. -/
theorem forwardAll_append (ops₁ ops₂ : List MigrationOperation) (db : Db) :
    forwardAll (ops₁ ++ ops₂) db =
      match forwardAll ops₁ db with
      | (db', none) => forwardAll ops₂ db'
      | (db', some e) => (db', some e) := by
  induction ops₁ generalizing db with
  | nil => simp [forwardAll]
  | cons op ops ih =>
    simp only [List.cons_append, forwardAll]
    cases op.forward db with
    | ok db' => exact ih db'
    | error e => rfl

/-- Same decomposition for `reverse` execution. -/
theorem reverseAll_append (ops₁ ops₂ : List MigrationOperation) (db : Db) :
    reverseAll (ops₁ ++ ops₂) db =
      match reverseAll ops₁ db with
      | (db', none) => reverseAll ops₂ db'
      | (db', some e) => (db', some e) := by
  induction ops₁ generalizing db with
  | nil => simp [reverseAll]
  | cons op ops ih =>
    simp only [List.cons_append, reverseAll]
    cases op.reverse db with
    | ok db' => exact ih db'
    | error e => rfl

/-- Claim C7: if an operation's `forward` raises during
`Migration.apply`, the run stops at exactly that operation and
propagates the error: the returned schema is the state after the
operations already applied (they are not rolled back) and — since the
conclusion holds for every tail `ops₂` — no subsequent operation is
executed.  The symmetric statement holds for `reverse` failures during
`Migration.unapply`, which processes `reversed(self.operations)`. -/
theorem migration_apply_stops_at_first_error :
    (∀ (nm app : String) (ops₁ : List MigrationOperation) (op : MigrationOperation)
        (ops₂ : List MigrationOperation) (db db₁ : Db) (e : SqlError),
      forwardAll ops₁ db = (db₁, none) → op.forward db₁ = .error e →
      Migration.apply ⟨nm, app, ops₁ ++ op :: ops₂⟩ db = (db₁, some e))
    ∧ (∀ (nm app : String) (ops₁ : List MigrationOperation) (op : MigrationOperation)
        (ops₂ : List MigrationOperation) (db db₁ : Db) (e : SqlError),
      reverseAll ops₁ db = (db₁, none) → op.reverse db₁ = .error e →
      Migration.unapply ⟨nm, app, ops₂.reverse ++ op :: ops₁.reverse⟩ db
        = (db₁, some e)) := by
  constructor
  · intro nm app ops₁ op ops₂ db db₁ e h1 h2
    unfold Migration.apply
    rw [forwardAll_append ops₁ (op :: ops₂) db, h1]
    simp [forwardAll, h2]
  · intro nm app ops₁ op ops₂ db db₁ e h1 h2
    unfold Migration.unapply
    have hops : (ops₂.reverse ++ op :: ops₁.reverse).reverse = ops₁ ++ op :: ops₂ := by
      simp [List.reverse_append]
    rw [hops, reverseAll_append ops₁ (op :: ops₂) db, h1]
    simp [reverseAll, h2]

/-- Claim C7 (witness): a duplicate `CREATE TABLE` aborts the migration
after the first operation, leaving table `t1` created, never reaching
the third operation; and an unapply whose first `reverse` fails aborts
before reversing the remaining operation. -/
theorem migration_apply_stops_witness :
    Migration.apply ⟨"m", "app", [.createTable "t1" [cId]] ++
        MigrationOperation.createTable "t1" [cId] :: [.createTable "t2" [cId]]⟩ db0
      = (⟨[("t1", [cId])], []⟩, some "table t1 already exists")
    ∧ Migration.unapply ⟨"m", "app", [MigrationOperation.createTable "t9" [cId]].reverse ++
        MigrationOperation.createTable "missing" [] :: ([] : List MigrationOperation).reverse⟩ db0
      = (db0, some "no such table: missing") := by
  constructor
  · exact migration_apply_stops_at_first_error.1 "m" "app" [.createTable "t1" [cId]]
      (.createTable "t1" [cId]) [.createTable "t2" [cId]] db0 ⟨[("t1", [cId])], []⟩
      "table t1 already exists" (by rfl) (by rfl)
  · exact migration_apply_stops_at_first_error.2 "m" "app" []
      (.createTable "missing" []) [.createTable "t9" [cId]] db0 db0
      "no such table: missing" (by rfl) (by rfl)

end FastJango

namespace FastJango

/-! ### apply_migrations ledger discipline and idempotence (claim C6) -/

/-- The final ledger is the initial ledger plus exactly the pairs
applied during the run, in order — a pair is recorded only by a
successful application, and the failing migration of an aborted run is
not recorded. -/
theorem apply_migrations_ledger_eq :
    ∀ (ms : List Migration) (s : MigState),
      (apply_migrations ms s).1.ledger = s.ledger ++ (apply_migrations ms s).2.1 := by
  intro ms
  induction ms with
  | nil => intro s; simp [apply_migrations]
  | cons m rest ih =>
    intro s
    by_cases hmem : (m.app_label, m.name) ∈ s.ledger
    · simp only [apply_migrations, if_pos hmem]
      exact ih s
    · simp only [apply_migrations, if_neg hmem]
      rcases happ : m.apply s.db with ⟨db', oe⟩
      cases oe with
      | some e => simp
      | none =>
        simp only []
        have := ih ⟨db', s.ledger ++ [(m.app_label, m.name)]⟩
        simp only [this]
        simp [List.append_assoc]

/-- No pair applied during a run was already in the starting ledger. -/
theorem apply_migrations_fresh :
    ∀ (ms : List Migration) (s : MigState) (p : String × String),
      p ∈ (apply_migrations ms s).2.1 → p ∉ s.ledger := by
  intro ms
  induction ms with
  | nil => intro s p hp; simp [apply_migrations] at hp
  | cons m rest ih =>
    intro s p hp
    by_cases hmem : (m.app_label, m.name) ∈ s.ledger
    · simp only [apply_migrations, if_pos hmem] at hp
      exact ih s p hp
    · simp only [apply_migrations, if_neg hmem] at hp
      rcases happ : m.apply s.db with ⟨db', oe⟩
      rw [happ] at hp
      cases oe with
      | some e => simp at hp
      | none =>
        simp only [List.mem_cons] at hp
        rcases hp with hp | hp
        · rw [hp]; exact hmem
        · have := ih ⟨db', s.ledger ++ [(m.app_label, m.name)]⟩ p hp
          intro hcon
          exact this (by simp [hcon])

/-- Each pair is applied at most once within a run. -/
theorem apply_migrations_nodup :
    ∀ (ms : List Migration) (s : MigState), (apply_migrations ms s).2.1.Nodup := by
  intro ms
  induction ms with
  | nil => intro s; simp [apply_migrations]
  | cons m rest ih =>
    intro s
    by_cases hmem : (m.app_label, m.name) ∈ s.ledger
    · simp only [apply_migrations, if_pos hmem]
      exact ih s
    · simp only [apply_migrations, if_neg hmem]
      rcases happ : m.apply s.db with ⟨db', oe⟩
      cases oe with
      | some e => simp
      | none =>
        simp only [List.nodup_cons]
        refine ⟨?_, ih _⟩
        intro hin
        have := apply_migrations_fresh rest ⟨db', s.ledger ++ [(m.app_label, m.name)]⟩ _ hin
        exact this (by simp)

/-- After a successful run every listed migration's pair is recorded. -/
theorem apply_migrations_complete :
    ∀ (ms : List Migration) (s : MigState),
      (apply_migrations ms s).2.2 = none →
      ∀ m ∈ ms, (m.app_label, m.name) ∈ (apply_migrations ms s).1.ledger := by
  intro ms
  induction ms with
  | nil => intro s _ m hm; simp at hm
  | cons m0 rest ih =>
    intro s herr m hm
    rcases List.mem_cons.mp hm with hm0 | hmrest
    · subst hm0
      by_cases hmem : (m.app_label, m.name) ∈ s.ledger
      · simp only [apply_migrations, if_pos hmem] at herr ⊢
        have hled := apply_migrations_ledger_eq rest s
        rw [hled]
        exact List.mem_append_left _ hmem
      · simp only [apply_migrations, if_neg hmem] at herr ⊢
        rcases happ : m.apply s.db with ⟨db', oe⟩
        rw [happ] at herr
        cases oe with
        | some e => exact Option.noConfusion herr
        | none =>
          have hled := apply_migrations_ledger_eq rest
            ⟨db', s.ledger ++ [(m.app_label, m.name)]⟩
          show (m.app_label, m.name) ∈
            (apply_migrations rest ⟨db', s.ledger ++ [(m.app_label, m.name)]⟩).1.ledger
          rw [hled]
          refine List.mem_append_left _ ?_
          exact List.mem_append_right _ (by simp)
    · by_cases hmem : (m0.app_label, m0.name) ∈ s.ledger
      · simp only [apply_migrations, if_pos hmem] at herr ⊢
        exact ih s herr m hmrest
      · simp only [apply_migrations, if_neg hmem] at herr ⊢
        rcases happ : m0.apply s.db with ⟨db', oe⟩
        rw [happ] at herr
        cases oe with
        | some e => exact Option.noConfusion herr
        | none =>
          exact ih ⟨db', s.ledger ++ [(m0.app_label, m0.name)]⟩ herr m hmrest

/-- A run whose every pair is already recorded does nothing. -/
theorem apply_migrations_skip_all :
    ∀ (ms : List Migration) (s : MigState),
      (∀ m ∈ ms, (m.app_label, m.name) ∈ s.ledger) →
      apply_migrations ms s = (s, [], none) := by
  intro ms
  induction ms with
  | nil => intro s _; rfl
  | cons m rest ih =>
    intro s h
    simp only [apply_migrations, if_pos (h m (List.mem_cons_self m rest))]
    exact ih s (fun m' hm' => h m' (List.mem_cons_of_mem m hm'))

/-- Claim C6: `apply_migrations` skips every migration whose
`(app_label, name)` pair is already recorded, records exactly the pairs
whose forward execution succeeded (appended after success — an aborted
run's failing migration is absent from the ledger), applies each pair
at most once within a run, and a second run over the same list after a
successful first run applies nothing and leaves the state unchanged. -/
theorem apply_migrations_idempotent :
    ∀ (ms : List Migration) (s : MigState),
      ((apply_migrations ms s).1.ledger = s.ledger ++ (apply_migrations ms s).2.1)
      ∧ (∀ p ∈ (apply_migrations ms s).2.1, p ∉ s.ledger)
      ∧ (apply_migrations ms s).2.1.Nodup
      ∧ ((apply_migrations ms s).2.2 = none →
          apply_migrations ms (apply_migrations ms s).1
            = ((apply_migrations ms s).1, [], none)) := by
  intro ms s
  refine ⟨apply_migrations_ledger_eq ms s, apply_migrations_fresh ms s,
    apply_migrations_nodup ms s, ?_⟩
  intro herr
  exact apply_migrations_skip_all ms _ (apply_migrations_complete ms s herr)

/-- Claim C6 (witness): two concrete migrations on an empty state; the
second run applies nothing and returns the first run's state. -/
theorem apply_migrations_idempotent_witness :
    apply_migrations [migA, migB] (apply_migrations [migA, migB] ms0).1
      = ((apply_migrations [migA, migB] ms0).1, [], none) :=
  (apply_migrations_idempotent [migA, migB] ms0).2.2.2 (by rfl)

end FastJango

namespace FastJango

/-! ### CreateTable/AddColumn/CreateIndex are undone by reverse (claim C8) -/

/-- Lookup skips a segment that does not bind the key. -/
theorem lookupFirst_append_none {α : Type} (k : String) (l₁ l₂ : List (String × α))
    (h : lookupFirst k l₁ = none) : lookupFirst k (l₁ ++ l₂) = lookupFirst k l₂ := by
  induction l₁ with
  | nil => rfl
  | cons x xs ih =>
    simp only [lookupFirst] at h
    by_cases hx : x.1 = k
    · rw [if_pos hx] at h; exact Option.noConfusion h
    · rw [if_neg hx] at h
      rw [List.cons_append]
      simp only [lookupFirst, if_neg hx]
      exact ih h

/-- Erasing a key appended after a segment that does not bind it. -/
theorem eraseFirstKey_append {α : Type} (k : String) (l : List (String × α))
    (v : α) (t : List (String × α)) (h : lookupFirst k l = none) :
    eraseFirstKey k (l ++ (k, v) :: t) = l ++ t := by
  induction l with
  | nil => simp [eraseFirstKey]
  | cons x xs ih =>
    simp only [lookupFirst] at h
    by_cases hx : x.1 = k
    · rw [if_pos hx] at h; exact Option.noConfusion h
    · rw [if_neg hx] at h
      rw [List.cons_append]
      simp only [eraseFirstKey, if_neg hx, ih h]
      rfl

/-- Lookup through an update of the same key. -/
theorem lookupFirst_updateFirst {α : Type} (k : String) (f : α → α) :
    ∀ (l : List (String × α)),
      lookupFirst k (updateFirst k f l) = (lookupFirst k l).map f := by
  intro l
  induction l with
  | nil => rfl
  | cons x xs ih =>
    by_cases hx : x.1 = k
    · simp only [updateFirst, lookupFirst, if_pos hx]
      rfl
    · simp only [updateFirst, lookupFirst, if_neg hx]
      exact ih

/-- Two updates of the same key compose on the first binding. -/
theorem updateFirst_updateFirst {α : Type} (k : String) (f g : α → α) :
    ∀ (l : List (String × α)),
      updateFirst k g (updateFirst k f l) = updateFirst k (fun v => g (f v)) l := by
  intro l
  induction l with
  | nil => rfl
  | cons x xs ih =>
    by_cases hx : x.1 = k
    · simp only [updateFirst, if_pos hx]
    · simp only [updateFirst, if_neg hx, ih]

/-- An update that fixes the first bound value is the identity. -/
theorem updateFirst_eq_self {α : Type} (k : String) (f : α → α) :
    ∀ (l : List (String × α)) (v : α),
      lookupFirst k l = some v → f v = v → updateFirst k f l = l := by
  intro l
  induction l with
  | nil => intro v h _; exact Option.noConfusion h
  | cons x xs ih =>
    intro v h hfv
    simp only [lookupFirst] at h
    by_cases hx : x.1 = k
    · rw [if_pos hx] at h
      cases h
      simp only [updateFirst, if_pos hx, hfv]
    · rw [if_neg hx] at h
      simp only [updateFirst, if_neg hx, ih v h hfv]

/-- Erasing a column appended after columns of other names. -/
theorem eraseFirstCol_append (c : String) (cd : ColumnDef) (t : List ColumnDef)
    (hcd : cd.name = c) :
    ∀ (l : List ColumnDef), l.any (fun x => x.name == c) = false →
      eraseFirstCol c (l ++ cd :: t) = l ++ t := by
  intro l
  induction l with
  | nil =>
    intro _
    simp only [List.nil_append]
    unfold eraseFirstCol
    rw [if_pos hcd]
  | cons x xs ih =>
    intro h
    simp only [List.any_cons, Bool.or_eq_false_iff] at h
    rw [List.cons_append]
    simp only [eraseFirstCol, if_neg (show ¬x.name = c by simpa using h.1), ih h.2]
    rfl

/-- A table absent from the schema has no binding. -/
theorem hasTable_false_lookup {db : Db} {t : String} (h : db.hasTable t = false) :
    lookupFirst t db.tables = none := by
  unfold Db.hasTable at h
  cases hl : lookupFirst t db.tables with
  | none => rfl
  | some v => rw [hl] at h; exact Bool.noConfusion h

/-- An index absent from the schema has no binding. -/
theorem hasIndex_false_lookup {db : Db} {i : String} (h : db.hasIndex i = false) :
    lookupFirst i db.indexes = none := by
  unfold Db.hasIndex at h
  cases hl : lookupFirst i db.indexes with
  | none => rfl
  | some v => rw [hl] at h; exact Bool.noConfusion h

set_option maxHeartbeats 1000000 in
/-- Claim C8: for `CreateTable`, `AddColumn` and `CreateIndex`, a
successful `forward` followed by `reverse` restores the prior schema
exactly: the created table, column or index is gone again and nothing
else changed (the resulting `Db` equals the original).  The
well-formedness hypothesis — every index's table exists — rules out
dangling indexes on the not-yet-created table. -/
theorem create_ops_forward_reverse_inverse
    (db db' : Db) (op : MigrationOperation)
    (hwf : ∀ p ∈ db.indexes, db.hasTable p.2.table = true)
    (hop : op.isCreateOp = true)
    (hfw : op.forward db = .ok db') :
    op.reverse db' = .ok db := by
  cases op with
  | dropTable t => exact Bool.noConfusion hop
  | dropColumn t c => exact Bool.noConfusion hop
  | alterColumn t c ty nn => exact Bool.noConfusion hop
  | dropIndex i => exact Bool.noConfusion hop
  | createTable t cols =>
    simp only [MigrationOperation.forward, Db.createTable] at hfw
    cases hht : db.hasTable t with
    | true => rw [hht] at hfw; simp at hfw
    | false =>
      rw [hht] at hfw
      simp only [Bool.false_eq_true, if_false, Except.ok.injEq] at hfw
      subst hfw
      have hlk := hasTable_false_lookup hht
      simp only [MigrationOperation.reverse, Db.dropTable]
      have hht' : Db.hasTable ⟨db.tables ++ [(t, cols)], db.indexes⟩ t = true := by
        unfold Db.hasTable
        simp only [lookupFirst_append_none t db.tables [(t, cols)] hlk]
        simp [lookupFirst]
      rw [hht']
      simp only [if_true, Except.ok.injEq]
      have htab : eraseFirstKey t (db.tables ++ (t, cols) :: []) = db.tables ++ [] :=
        eraseFirstKey_append t db.tables cols [] hlk
      have hidx : db.indexes.filter (fun p => !(p.2.table == t)) = db.indexes := by
        rw [List.filter_eq_self]
        intro p hp
        have hp2 := hwf p hp
        simp only [Bool.not_eq_true', beq_eq_false_iff_ne]
        intro hbeq
        rw [hbeq, hht] at hp2
        exact Bool.noConfusion hp2
      simp only [List.append_nil] at htab
      rw [htab, hidx]
  | addColumn t c ty nn uq df =>
    simp only [MigrationOperation.forward, Db.addColumn] at hfw
    cases hlk : lookupFirst t db.tables with
    | none =>
      simp only [hlk] at hfw
      exact Except.noConfusion hfw
    | some cols =>
      simp only [hlk] at hfw
      cases hany : cols.any (fun cd => cd.name == c) with
      | true => rw [hany] at hfw; simp at hfw
      | false =>
        rw [hany] at hfw
        simp only [Bool.false_eq_true, if_false, Except.ok.injEq] at hfw
        subst hfw
        simp only [MigrationOperation.reverse, Db.dropColumn]
        have hlk2 : lookupFirst t (updateFirst t (fun cs => cs ++ [{ name := c, ctype := ty, nullable := nn, primary_key := false, unique := uq, default := df }]) db.tables) = some (cols ++ [{ name := c, ctype := ty, nullable := nn, primary_key := false, unique := uq, default := df }]) := by
          rw [lookupFirst_updateFirst, hlk]
          rfl
        simp only [hlk2]
        have hany2 : (cols ++ [{ name := c, ctype := ty, nullable := nn, primary_key := false, unique := uq, default := df : ColumnDef }]).any (fun cd => cd.name == c) = true := by
          simp [List.any_append]
        rw [hany2]
        simp only [if_true, Except.ok.injEq]
        rw [updateFirst_updateFirst]
        have herase : eraseFirstCol c (cols ++ [{ name := c, ctype := ty, nullable := nn, primary_key := false, unique := uq, default := df : ColumnDef }]) = cols := by
          have h0 := eraseFirstCol_append c { name := c, ctype := ty, nullable := nn, primary_key := false, unique := uq, default := df } [] rfl cols hany
          simpa using h0
        rw [updateFirst_eq_self t _ db.tables cols hlk (by rw [herase])]
  | createIndex t i cols u =>
    simp only [MigrationOperation.forward, Db.createIndex] at hfw
    cases hht : db.hasTable t with
    | false => rw [hht] at hfw; simp at hfw
    | true =>
      rw [hht] at hfw
      cases hhi : db.hasIndex i with
      | true => rw [hhi] at hfw; simp at hfw
      | false =>
        rw [hhi] at hfw
        simp only [Bool.not_true, Bool.false_eq_true, if_false, if_true, Except.ok.injEq] at hfw
        subst hfw
        have hlk := hasIndex_false_lookup hhi
        simp only [MigrationOperation.reverse, Db.dropIndex]
        have hhi' : Db.hasIndex ⟨db.tables, db.indexes ++ [(i, ⟨t, cols, u⟩)]⟩ i = true := by
          unfold Db.hasIndex
          simp only [lookupFirst_append_none i db.indexes [(i, ⟨t, cols, u⟩)] hlk]
          simp [lookupFirst]
        rw [hhi']
        simp only [if_true, Except.ok.injEq]
        have hidx : eraseFirstKey i (db.indexes ++ (i, ⟨t, cols, u⟩) :: []) = db.indexes ++ [] :=
          eraseFirstKey_append i db.indexes ⟨t, cols, u⟩ [] hlk
        simp only [List.append_nil] at hidx
        rw [hidx]

/-- Claim C8 (witness): the spec's scenario C — after `forward` of
`CreateTable("widgets", [id, sku])` on the empty schema the table
exists with exactly those columns, and the subsequent `reverse`
restores the empty schema (the table no longer exists). -/
theorem create_ops_inverse_witness :
    widgetsOp.forward db0 = .ok ⟨[("widgets", [cId, cSku])], []⟩
    ∧ widgetsOp.reverse ⟨[("widgets", [cId, cSku])], []⟩ = .ok db0 := by
  constructor
  · rfl
  · exact create_ops_forward_reverse_inverse db0 ⟨[("widgets", [cId, cSku])], []⟩
      widgetsOp (by simp [db0]) (by rfl) (by rfl)

end FastJango

namespace FastJango

/-- Claim C9: `Model.delete` removes exactly the persisted rows bearing
the instance's primary-key value (a surviving row is one of the
original rows with a different primary key, and every such original row
survives in order); and for an instance whose primary key is unset the
session reports `InvalidRequestError` — the error is raised to the
caller, not silently ignored. -/
theorem model_delete_by_pk :
    ∀ (pkField : String) (inst : Row) (s : List Row),
      (inst.getF pkField = none →
        modelDelete pkField inst s
          = .error (.invalidRequestError "Instance is not persisted"))
      ∧ (∀ k, inst.getF pkField = some k →
          modelDelete pkField inst s
              = .ok (s.filter (fun r => decide (r.getF pkField ≠ some k)))
            ∧ ∀ r, r ∈ s.filter (fun r => decide (r.getF pkField ≠ some k))
                ↔ (r ∈ s ∧ r.getF pkField ≠ some k)) := by
  intro pkField inst s
  constructor
  · intro h
    unfold modelDelete
    rw [h]
  · intro k h
    constructor
    · unfold modelDelete
      rw [h]
    · intro r
      simp [List.mem_filter]

/-- Claim C9 (witness): deleting an instance with primary key 1 removes
exactly the stored row with id 1, and deleting an instance with no
primary key raises `InvalidRequestError`. -/
theorem model_delete_by_pk_witness :
    modelDelete "id" [("id", .int 1), ("name", .str "Widget")] [wrow 1, wrow 2]
        = .ok [wrow 2]
    ∧ modelDelete "id" [("name", .str "Widget")] [wrow 1, wrow 2]
        = .error (.invalidRequestError "Instance is not persisted") := by
  constructor
  · have h := (model_delete_by_pk "id" [("id", .int 1), ("name", .str "Widget")]
      [wrow 1, wrow 2]).2 (.int 1) (by rfl)
    rw [h.1]
    rfl
  · exact (model_delete_by_pk "id" [("name", .str "Widget")] [wrow 1, wrow 2]).1 (by rfl)

end FastJango
